import Mathlib

/-!
# A verification development for `scripts/optimize.py`

This file shallowly embeds the asset usage-classification engine and the
manifest-driven deletion/compression workflow of `scripts/optimize.py` and
proves the stated properties of that program.

Modelling conventions:

* Paths are plain strings; the POSIX path helpers used by the script
  (`os.path.normpath`, `os.path.join`, `os.path.dirname`, `os.path.basename`,
  `os.path.relpath`, `os.path.abspath`) are embedded as executable string
  functions with the algorithms of CPython's `posixpath`.
* The filesystem is an explicit state: a list of `(path, size)` pairs for
  regular files, a list of existing directories, and the parsed deletion
  manifest (the one fixed-path JSON file, held separately so that its parsed
  content is available to the confirm phase).
* Calls to the remote compression service and other fallible IO are modelled
  by oracles (`Nat → CallResult`, `String → Bool`) that say, for each call,
  whether it raises and what it returns.  Python floats are modelled as exact
  rationals.
* The regex scan of source text (`find_source_files` plus the line loop of
  `parse_import_paths`) is abstracted as the list of `(source file, raw
  matched path)` pairs it yields; the per-match resolution policy of
  `parse_import_paths` (lines 111-118) and everything after it is embedded
  faithfully.
-/

namespace AdAsset

/-- The characters of a path split on `'/'`, mirroring Python's
`p.split('/')` (adjacent separators yield empty components). -/
def splitSlash : List Char → List (List Char)
  | [] => [[]]
  | c :: cs =>
    let rest := splitSlash cs
    if c = '/' then [] :: rest
    else
      match rest with
      | t :: ts => (c :: t) :: ts
      | [] => [[c]]

/-- `p.split('/')` on strings. -/
def splitOnSlash (s : String) : List String :=
  (splitSlash s.data).map String.mk

/-- `List.take`-free test that the second character list is a leading
segment of the first. -/
def leadsWith : List Char → List Char → Bool
  | _, [] => true
  | [], _ :: _ => false
  | c :: cs, d :: ds => c == d && leadsWith cs ds

/-- Python's `s.startswith(pat)`. -/
def strStartsWith (s pat : String) : Bool :=
  leadsWith s.data pat.data

/-- Python's `s.endswith(pat)`. -/
def strEndsWith (s pat : String) : Bool :=
  leadsWith s.data.reverse pat.data.reverse

/-- `'/'.join(parts)`-style joining with a separator. -/
def joinWith (sep : String) : List String → String
  | [] => ""
  | [x] => x
  | x :: y :: ys => x ++ sep ++ joinWith sep (y :: ys)

/-- One step of `posixpath.normpath`'s component loop.  The accumulator is
kept reversed (head = most recent component).  A component is appended when
it is not `..`, or when the path is relative and nothing has been kept yet,
or when the last kept component is itself `..`; otherwise it pops the last
kept component (when there is one; for an absolute path `..` at the root is
dropped). -/
def normStep (isAbs : Bool) (acc : List String) (comp : String) : List String :=
  if comp = "" || comp = "." then acc
  else if comp ≠ ".." then comp :: acc
  else if (!isAbs && acc.isEmpty) || acc.head? = some ".." then comp :: acc
  else
    match acc with
    | [] => []
    | _ :: rest => rest

/-- `posixpath.normpath`: collapse separators, drop `.` components, resolve
`..` where possible; the empty path normalizes to `.`; one or two (but not
three or more) leading slashes are preserved. -/
def normpath (p : String) : String :=
  if p = "" then "." else
  let isAbs := strStartsWith p "/"
  let slashes :=
    if strStartsWith p "//" && !strStartsWith p "///" then "//"
    else if isAbs then "/" else ""
  let comps := splitOnSlash p
  let newComps := (comps.foldl (normStep isAbs) []).reverse
  let joined := slashes ++ joinWith "/" newComps
  if joined = "" then "." else joined

/-- `posixpath.join` restricted to two arguments, which is the only way the
script calls it: an absolute second argument wins; otherwise the pieces are
glued with a single separator unless the first ends in one or is empty. -/
def joinPath (a b : String) : String :=
  if strStartsWith b "/" then b
  else if a = "" || strEndsWith a "/" then a ++ b
  else a ++ "/" ++ b

/-- Drop trailing `/` characters. -/
def dropTrailingSlashes (cs : List Char) : List Char :=
  (cs.reverse.dropWhile (fun c => c == '/')).reverse

/-- `posixpath.dirname`: everything up to the last separator, with trailing
separators then stripped unless the head consists only of separators. -/
def dirname (p : String) : String :=
  let head := (p.data.reverse.dropWhile (fun c => c != '/')).reverse
  if head.all (fun c => c == '/') then String.mk head
  else String.mk (dropTrailingSlashes head)

/-- `posixpath.basename`: everything after the last separator. -/
def basename (p : String) : String :=
  String.mk (p.data.reverse.takeWhile (fun c => c != '/')).reverse

/-- `posixpath.abspath`, with the working directory passed explicitly. -/
def abspath (cwd p : String) : String :=
  if strStartsWith p "/" then normpath p else normpath (joinPath cwd p)

/-- Length of the common leading run of two component lists
(`posixpath.commonprefix` on lists). -/
def commonLen : List String → List String → Nat
  | a :: xs, b :: ys => if a = b then commonLen xs ys + 1 else 0
  | _, _ => 0

/-- `posixpath.relpath(path, start)`, with the working directory passed
explicitly: both arguments are made absolute, split into nonempty
components, the shared leading run is removed, and one `..` is emitted for
each remaining component of `start`. -/
def relpath (cwd path start : String) : String :=
  let pl := (splitOnSlash (abspath cwd path)).filter (fun x => x != "")
  let sl := (splitOnSlash (abspath cwd start)).filter (fun x => x != "")
  let i := commonLen sl pl
  let rel := List.replicate (sl.length - i) ".." ++ pl.drop i
  if rel.isEmpty then "." else joinWith "/" rel

/-- Render `num / den` with one decimal digit (the script formats a float
with `:.1f`; the tie-breaking of binary floats is approximated by
round-half-up on exact rationals — no stated property depends on the
rendered digits). -/
def oneDecimalStr (num den : Nat) : String :=
  let t := (num * 10 + den / 2) / den
  toString (t / 10) ++ "." ++ toString (t % 10)

/-- Render `num / den` with two decimal digits (see `oneDecimalStr`). -/
def twoDecimalStr (num den : Nat) : String :=
  let t := (num * 100 + den / 2) / den
  toString (t / 100) ++ "." ++ (if t % 100 < 10 then "0" else "") ++ toString (t % 100)

/-- `format_size` (lines 42-48): bytes to a human-readable string. -/
def format_size (bytes_val : Nat) : String :=
  if bytes_val < 1024 then toString bytes_val ++ " B"
  else if bytes_val < 1024 * 1024 then oneDecimalStr bytes_val 1024 ++ " KB"
  else twoDecimalStr bytes_val (1024 * 1024) ++ " MB"

/-- An asset record as built by `detect_unused` (lines 139-145) and copied
verbatim into the deletion manifest's `files[]` (lines 432-436): the same
five fields in both places. -/
structure Entry where
  path : String
  rel_path : String
  filename : String
  size : Nat
  size_human : String
deriving DecidableEq

/-- The parsed deletion manifest (lines 426-437). -/
structure Manifest where
  project : String
  project_dir : String
  total_unused_files : Nat
  total_unused_size : Nat
  total_unused_size_human : String
  files : List Entry
deriving DecidableEq

/-- The filesystem state the script reads and mutates: regular files with
their byte sizes, existing directories, and the deletion manifest.  The
manifest is the JSON file at the fixed path `manifestPath`; it is held in a
separate field so that its parsed content is available, and `dirEmptyB`
accounts for its presence on disk. -/
structure FS where
  files : List (String × Nat)
  dirs : List String
  manifest : Option Manifest
deriving DecidableEq

/-- `os.path.exists` on a regular file. -/
def fileExists (fs : FS) (p : String) : Bool :=
  fs.files.any (fun f => f.1 == p)

/-- `os.path.getsize`. -/
def getsize (fs : FS) (p : String) : Nat :=
  ((fs.files.filter (fun f => f.1 == p)).map (fun f => f.2)).headD 0

/-- `os.remove`. -/
def removeFile (fs : FS) (p : String) : FS :=
  { fs with files := fs.files.filter (fun f => f.1 != p) }

/-- Create or overwrite a regular file of the given size. -/
def addFile (fs : FS) (p : String) (n : Nat) : FS :=
  { fs with files := fs.files.filter (fun f => f.1 != p) ++ [(p, n)] }

/-- `os.path.isdir`. -/
def isdir (fs : FS) (d : String) : Bool :=
  fs.dirs.any (fun x => x == d)

/-- `os.rmdir`. -/
def removeDir (fs : FS) (d : String) : FS :=
  { fs with dirs := fs.dirs.filter (fun x => x != d) }

/-- The fixed manifest name (line 423 / line 526). -/
def manifestFileName : String := ".deletion_manifest.json"

/-- The fixed review-artifact name (line 363). -/
def reviewFileName : String := ".deletion_review.html"

/-- The fixed manifest path inside the project directory. -/
def manifestPath (pd : String) : String := joinPath pd manifestFileName

/-- `os.path.isdir(d) and not os.listdir(d)` (line 575): the directory
exists and contains no file, no other directory, and not the manifest
file. -/
def dirEmptyB (pd : String) (fs : FS) (d : String) : Bool :=
  fs.files.all (fun f => dirname f.1 != d) &&
  fs.dirs.all (fun d2 => d2 == d || dirname d2 != d) &&
  (!fs.manifest.isSome || dirname (manifestPath pd) != d)

/-- The per-match resolution policy of `parse_import_paths`
(lines 111-118): a raw matched string starting with `assets/` is kept
as-is; one starting with `./` or `../` is resolved against the referencing
file's directory and re-expressed relative to the project root; anything
else is kept verbatim. -/
def resolve_import (cwd project_dir sf raw : String) : String :=
  if strStartsWith raw "assets/" then raw
  else if strStartsWith raw "./" || strStartsWith raw "../" then
    relpath cwd (normpath (joinPath (dirname sf) raw)) project_dir
  else raw

/-- `parse_import_paths` (lines 98-120) on the list of
`(source file, raw matched path)` pairs produced by the regex scan (the
scan itself, including the `--strict` comment filter, is the abstracted
input); the result is the set of resolved reference strings. -/
def parse_import_paths (cwd project_dir : String)
    (built : List (String × String)) : List String :=
  (built.map (fun m => resolve_import cwd project_dir m.1 m.2)).dedup

/-- The set `imported_abs` of `detect_unused` (lines 126-129): each
resolved reference normalized against the project root. -/
def importedAbs (cwd project_dir : String) (built : List (String × String)) :
    List String :=
  ((parse_import_paths cwd project_dir built).map
    (fun p => normpath (joinPath project_dir p))).dedup

/-- The asset record `entry` built for one image (lines 139-145). -/
def assetEntry (cwd base_dir : String) (fs : FS) (img : String) : Entry :=
  { path := img
    rel_path := relpath cwd img base_dir
    filename := basename img
    size := getsize fs img
    size_human := format_size (getsize fs img) }

/-- `base_dir` of `detect_unused` (lines 133-134): the assets directory
when it exists, else the project root. -/
def baseDir (project_dir : String) (fs : FS) : String :=
  if isdir fs (joinPath project_dir "assets") then joinPath project_dir "assets"
  else project_dir

/-- `detect_unused` (lines 123-152): classify every inventory image as used
or unused by exact membership of its normalized path in `imported_abs`. -/
def detect_unused (cwd project_dir : String) (images : List String)
    (built : List (String × String)) (fs : FS) : List Entry × List Entry :=
  let imported := importedAbs cwd project_dir built
  let base_dir := baseDir project_dir fs
  images.foldl
    (fun acc img =>
      if imported.contains (normpath img) then
        (acc.1 ++ [assetEntry cwd base_dir fs img], acc.2)
      else
        (acc.1, acc.2 ++ [assetEntry cwd base_dir fs img]))
    ([], [])

/-- The outcome of one remote round-trip for one file, as seen by the
`try` block of `run_optimize`'s compression loop (lines 391-420):
`shrinkErr msg` means `compress_file` raised with message `msg` (an
`HTTPError` wrapped at lines 177-184, or a transport error); `shrinkOk`
carries the shrink response's `input.size`, `output.size` and the
`Compression-Count` header, plus `afterErr = some msg` when the later
backup copy or `download_file` raised. -/
inductive CallResult where
  | shrinkErr (msg : String)
  | shrinkOk (input_size output_size : Int) (compression_count : String)
      (afterErr : Option String)
deriving DecidableEq

/-- The status of an entry of `compressed_results`. -/
inductive CStatus where
  | compressed
  | skipped
deriving DecidableEq

/-- An entry of `compressed_results` (lines 398-401 and 413-417); the
`saved_bytes` key is present only for `compressed` entries.  The
presentation-only `saved_pct` key is not modelled. -/
structure CompressRecord where
  file : String
  status : CStatus
  original_size : Int
  compressed_size : Int
  saved_bytes : Option Int
deriving DecidableEq

/-- An entry of `compress_errors` (line 420). -/
structure CompressError where
  file : String
  error : String
deriving DecidableEq

/-- `savings_pct` (line 395), with the Python float arithmetic modelled as
exact rationals. -/
def savings_pct (input_size output_size : Int) : ℚ :=
  if input_size > 0 then
    (((input_size - output_size : Int) : ℚ) / (input_size : ℚ)) * 100
  else 0

/-- The running state of the compression loop: the two outcome lists, the
two byte accumulators, the `compression_count` value (initially the
sentinel `"?"`, line 379), and the filesystem. -/
structure OptState where
  results : List CompressRecord
  errors : List CompressError
  total_compressed_saved : Int
  total_compressed_original : Int
  compression_count : String
  fs : FS
deriving DecidableEq

/-- One iteration of the compression loop (lines 386-420) on one used
entry.  On a successful shrink call the `compression_count` is updated
first (the tuple assignment of line 393), then the skip-if-negligible
policy runs; a raise anywhere in the `try` block appends to the error
list instead.  Backup side effects of iterations that subsequently raise
are not tracked. -/
def optStep (backup : Bool) (call : CallResult) (st : OptState) (e : Entry) :
    OptState :=
  match call with
  | .shrinkErr msg => { st with errors := st.errors ++ [⟨e.rel_path, msg⟩] }
  | .shrinkOk inS outS cnt afterErr =>
    let st1 := { st with compression_count := cnt }
    if savings_pct inS outS < 1 then
      { st1 with results := st1.results ++ [⟨e.rel_path, .skipped, inS, outS, none⟩] }
    else
      match afterErr with
      | some msg => { st1 with errors := st1.errors ++ [⟨e.rel_path, msg⟩] }
      | none =>
        let fs1 := if backup then addFile st1.fs (e.path ++ ".bak") (getsize st1.fs e.path)
                   else st1.fs
        { st1 with
          fs := addFile fs1 e.path outS.toNat
          results := st1.results ++ [⟨e.rel_path, .compressed, inS, outS, some (inS - outS)⟩]
          total_compressed_saved := st1.total_compressed_saved + (inS - outS)
          total_compressed_original := st1.total_compressed_original + inS }

/-- The compression loop itself, indexed so the oracle can address each
round-trip. -/
def optLoop (backup : Bool) (oracle : Nat → CallResult) :
    Nat → OptState → List Entry → OptState
  | _, st, [] => st
  | i, st, e :: es => optLoop backup oracle (i + 1) (optStep backup (oracle i) st e) es

/-- The slice of `run_optimize`'s final report (lines 486-519) that the
stated properties mention. -/
structure Report where
  files_compressed : Nat
  files_skipped : Nat
  compression_original_bytes : Int
  compression_saved_bytes : Int
  results : List CompressRecord
  errors : List CompressError
  deletion_pending_files : Nat
  deletion_pending_size_bytes : Nat
  api_compressions_this_month : String
deriving DecidableEq

/-- Stable insertion of an entry into a size-descending list, placing it
before the first strictly smaller entry. -/
def insertBySizeDesc (x : Entry) : List Entry → List Entry
  | [] => [x]
  | y :: ys => if y.size ≤ x.size then x :: y :: ys else y :: insertBySizeDesc x ys

/-- `sorted(unused, key=lambda x: -x["size"])` (line 425): stable
descending sort by size. -/
def sortBySizeDesc : List Entry → List Entry
  | [] => []
  | x :: xs => insertBySizeDesc x (sortBySizeDesc xs)

/-- The loop-state initializer of `run_optimize` (lines 375-379): empty
outcome lists, zero byte accumulators, and the `"?"` sentinel for the
usage counter. -/
def initOptState (fs : FS) : OptState := ⟨[], [], 0, 0, "?", fs⟩

/-- The state after `run_optimize`'s compression phase (lines 381-420):
the loop runs only when `--compress` was given and some asset is used. -/
def optimizeState (cwd project_dir : String) (images : List String)
    (built : List (String × String)) (oracle : Nat → CallResult)
    (do_compress backup : Bool) (fs : FS) : OptState :=
  let used := (detect_unused cwd project_dir images built fs).1
  if do_compress && !used.isEmpty then optLoop backup oracle 0 (initOptState fs) used
  else initOptState fs

/-- The `DeletionManifest` written by the propose phase (lines 423-439):
the unused set sorted by descending size, with aggregate figures. -/
def proposedManifest (cwd project_dir : String) (images : List String)
    (built : List (String × String)) (fs : FS) : Manifest :=
  let unused := (detect_unused cwd project_dir images built fs).2
  { project := basename project_dir
    project_dir := project_dir
    total_unused_files := unused.length
    total_unused_size := (unused.map Entry.size).sum
    total_unused_size_human := format_size ((unused.map Entry.size).sum)
    files := sortBySizeDesc unused }

/-- `run_optimize` (lines 369-522): classify, optionally compress each used
asset (network effects through `oracle`), optionally propose deletion by
writing the manifest and the review artifact, and assemble the report. -/
def run_optimize (cwd project_dir : String) (images : List String)
    (built : List (String × String)) (oracle : Nat → CallResult)
    (do_compress do_delete backup : Bool) (fs : FS) : Report × FS :=
  let unused := (detect_unused cwd project_dir images built fs).2
  let st := optimizeState cwd project_dir images built oracle do_compress backup fs
  let fs2 :=
    if do_delete && !unused.isEmpty then
      addFile { st.fs with manifest := some (proposedManifest cwd project_dir images built fs) }
        (joinPath project_dir reviewFileName) 0
    else st.fs
  let report : Report :=
    { files_compressed := (st.results.filter (fun r => r.status == .compressed)).length
      files_skipped := (st.results.filter (fun r => r.status == .skipped)).length
      compression_original_bytes := st.total_compressed_original
      compression_saved_bytes := st.total_compressed_saved
      results := st.results
      errors := st.errors
      deletion_pending_files := if do_delete then unused.length else 0
      deletion_pending_size_bytes := if do_delete then (unused.map Entry.size).sum else 0
      api_compressions_this_month := st.compression_count }
  (report, fs2)

/-- An entry of `deleted_results` (line 565). -/
structure DeletedItem where
  file : String
  size : Nat
  size_human : String
deriving DecidableEq

/-- The structured result of `run_confirm_delete` (lines 586-591; the
empty-manifest return of line 538 carries no items). -/
structure ConfirmResult where
  deleted : Nat
  freed_bytes : Nat
  items : List DeletedItem
deriving DecidableEq

/-- The outcome of one `--confirm-delete` invocation: the process exit code
(`sys.exit(1)` at line 529 on a missing manifest, 0 otherwise), the
structured result when one is produced, and the final filesystem. -/
structure ConfirmRun where
  exitCode : Nat
  result : Option ConfirmResult
  fs : FS
deriving DecidableEq

/-- One iteration of the deletion loop (lines 547-568): a file no longer on
disk is skipped silently; a raise from the backup copy or `os.remove`
(modelled by `opFails`) is caught and the entry contributes nothing;
otherwise the file is removed and the manifest-recorded size accumulated. -/
def confirmStep (opFails : String → Bool) (st : FS × List DeletedItem × Nat)
    (e : Entry) : FS × List DeletedItem × Nat :=
  if fileExists st.1 e.path then
    if opFails e.path then st
    else (removeFile st.1 e.path, st.2.1 ++ [⟨e.rel_path, e.size, e.size_human⟩],
          st.2.2 + e.size)
  else st

/-- The set of parent directories considered by the cleanup pass
(lines 570-572): the `dirname` of every manifest entry's path, as a set. -/
def parentDirs (files : List Entry) : List String :=
  (files.map (fun e => dirname e.path)).dedup

/-- Stable insertion of a string into a length-descending list. -/
def insertByLenDesc (x : String) : List String → List String
  | [] => [x]
  | y :: ys => if y.length ≤ x.length then x :: y :: ys else y :: insertByLenDesc x ys

/-- `sorted(parent_dirs, key=len, reverse=True)` (line 573). -/
def sortByLenDesc : List String → List String
  | [] => []
  | x :: xs => insertByLenDesc x (sortByLenDesc xs)

/-- One iteration of the cleanup pass (lines 573-579): remove the directory
when it exists and is empty; any raise (modelled by `rmdirFails`) is
swallowed. -/
def cleanupStep (pd : String) (rmdirFails : String → Bool) (fs : FS) (d : String) :
    FS :=
  if isdir fs d && dirEmptyB pd fs d && !rmdirFails d then removeDir fs d else fs

/-- `run_confirm_delete` (lines 525-593): fail with exit code 1 when no
manifest exists; on an empty file list delete the manifest and report zero
deletions; otherwise run the deletion loop, the cleanup pass, and delete
the manifest unconditionally. -/
def run_confirm_delete (pd : String) (opFails rmdirFails : String → Bool)
    (fs : FS) : ConfirmRun :=
  match fs.manifest with
  | none => ⟨1, none, fs⟩
  | some m =>
    if m.files.isEmpty then ⟨0, some ⟨0, 0, []⟩, { fs with manifest := none }⟩
    else
      let s := m.files.foldl (confirmStep opFails) (fs, [], 0)
      let dirsToCheck := sortByLenDesc (parentDirs m.files)
      let fs2 := dirsToCheck.foldl (cleanupStep pd rmdirFails) s.1
      ⟨0, some ⟨s.2.1.length, s.2.2, s.2.1⟩, { fs2 with manifest := none }⟩

/-- The `compressed_results` record one iteration of the compression loop
appends for its own file, `none` when the iteration appends an error
instead: the outcome depends only on that file's own round-trip. -/
def perFileRecord (call : CallResult) (e : Entry) : Option CompressRecord :=
  match call with
  | .shrinkErr _ => none
  | .shrinkOk inS outS _ afterErr =>
    if savings_pct inS outS < 1 then some ⟨e.rel_path, .skipped, inS, outS, none⟩
    else
      match afterErr with
      | some _ => none
      | none => some ⟨e.rel_path, .compressed, inS, outS, some (inS - outS)⟩

/-- The `compress_errors` record one iteration of the compression loop
appends for its own file, `none` when the iteration succeeds or skips. -/
def perFileError (call : CallResult) (e : Entry) : Option CompressError :=
  match call with
  | .shrinkErr msg => some ⟨e.rel_path, msg⟩
  | .shrinkOk inS outS _ afterErr =>
    if savings_pct inS outS < 1 then none
    else afterErr.map (fun msg => ⟨e.rel_path, msg⟩)

/-- The usage counter a round-trip reports, `none` when the shrink call
itself raised. -/
def countOf : CallResult → Option String
  | .shrinkErr _ => none
  | .shrinkOk _ _ c _ => some c

/-- Modelled from the spec: `savings_pct = (input_size - output_size) /
input_size * 100` taken as `0` when `input_size == 0`, stated in exact
rational arithmetic. -/
def savings_pct_spec (input_size output_size : Int) : ℚ :=
  if input_size = 0 then 0
  else (((input_size : ℚ) - (output_size : ℚ)) / (input_size : ℚ)) * 100

/-- The `deleted_results` record for one successfully deleted entry
(line 565): the manifest-recorded figures, not the on-disk ones. -/
def toDeletedItem (e : Entry) : DeletedItem := ⟨e.rel_path, e.size, e.size_human⟩

/-- The manifest entries the deletion loop actually deletes, judged against
a fixed filesystem: those whose file exists and whose backup/removal does
not raise. -/
def confirmSelect (opFails : String → Bool) (fs : FS) (entries : List Entry) :
    List Entry :=
  entries.filter (fun e => fileExists fs e.path && !opFails e.path)

/-- Remove a list of paths in order. -/
def removePaths (fs : FS) (ps : List String) : FS := ps.foldl removeFile fs

/- Concrete fixtures used by the witness and counterexample theorems. -/

/-- A two-image project with one source file referencing neither image. -/
def wFS : FS :=
  ⟨[("/p/assets/a.png", 10), ("/p/assets/b.png", 3), ("/p/src/m.ts", 1)],
   ["/p", "/p/assets", "/p/src"], none⟩

/-- Manifest entry fixture for `/p/assets/a.png`. -/
def wEntryA : Entry := ⟨"/p/assets/a.png", "a.png", "a.png", 10, "10 B"⟩

/-- Manifest entry fixture for `/p/assets/b.png`. -/
def wEntryB : Entry := ⟨"/p/assets/b.png", "b.png", "b.png", 3, "3 B"⟩

/-- A manifest listing both fixture entries. -/
def wManifest : Manifest := ⟨"p", "/p", 2, 13, "13 B", [wEntryA, wEntryB]⟩

/-- The fixture filesystem with the fixture manifest present, where the
on-disk size of `/p/assets/b.png` (7) disagrees with the manifest-recorded
size (3). -/
def wFSm : FS :=
  ⟨[("/p/assets/a.png", 10), ("/p/assets/b.png", 7), ("/p/src/m.ts", 1)],
   ["/p", "/p/assets", "/p/src"], some wManifest⟩

/-- A project holding the asset `assets/ui/hero.png` and the source file
`src/ui/menu.ts`. -/
def wFS7 : FS :=
  ⟨[("/proj/assets/ui/hero.png", 8), ("/proj/src/ui/menu.ts", 1)],
   ["/proj", "/proj/assets", "/proj/assets/ui", "/proj/src", "/proj/src/ui"], none⟩

/-- A filesystem whose manifest lists one already-deleted file inside a
now-empty directory. -/
def wFSgone : FS :=
  ⟨[], ["/p", "/p/assets"],
   some ⟨"p", "/p", 1, 5, "5 B", [⟨"/p/assets/x.png", "x.png", "x.png", 5, "5 B"⟩]⟩⟩

/-! ## The usage classifier -/

theorem assetEntry_path (cwd base_dir : String) (fs : FS) (img : String) :
    (assetEntry cwd base_dir fs img).path = img := rfl

theorem foldl_classify (pred : String → Bool) (mk : String → Entry) :
    ∀ (l : List String) (a b : List Entry),
      l.foldl
        (fun acc img =>
          if pred img then (acc.1 ++ [mk img], acc.2) else (acc.1, acc.2 ++ [mk img]))
        (a, b) =
      (a ++ (l.filter pred).map mk, b ++ (l.filter (fun i => !pred i)).map mk) := by
  intro l
  induction l with
  | nil => intro a b; simp
  | cons x xs ih =>
    intro a b
    by_cases h : pred x = true
    · simp only [List.foldl_cons, h, if_true, List.filter_cons, Bool.not_true, if_false, ih,
        List.append_assoc, List.map_cons]
      simp
    · have h' : pred x = false := by
        cases hx : pred x
        · rfl
        · exact absurd hx h
      simp only [List.foldl_cons, h', Bool.false_eq_true, if_false, List.filter_cons,
        Bool.not_false, if_true, ih, List.append_assoc, List.map_cons]
      simp [h']

theorem detect_unused_eq (cwd project_dir : String) (images : List String)
    (built : List (String × String)) (fs : FS) :
    detect_unused cwd project_dir images built fs =
      ((images.filter
          (fun img => (importedAbs cwd project_dir built).contains (normpath img))).map
         (assetEntry cwd (baseDir project_dir fs) fs),
       (images.filter
          (fun img => !(importedAbs cwd project_dir built).contains (normpath img))).map
         (assetEntry cwd (baseDir project_dir fs) fs)) := by
  unfold detect_unused
  have h := foldl_classify
    (fun img => (importedAbs cwd project_dir built).contains (normpath img))
    (assetEntry cwd (baseDir project_dir fs) fs) images [] []
  simpa using h

/-- Claim C1: for every project inventory and every resolved reference set,
`detect_unused` places each inventory asset in exactly one of its two output
lists — the used and unused lists are disjoint, and together (projected back
to their paths) they are a permutation of the input inventory. -/
theorem classifier_partition (cwd project_dir : String) (images : List String)
    (built : List (String × String)) (fs : FS) :
    (∀ e, e ∈ (detect_unused cwd project_dir images built fs).1 →
        e ∉ (detect_unused cwd project_dir images built fs).2) ∧
    (((detect_unused cwd project_dir images built fs).1 ++
        (detect_unused cwd project_dir images built fs).2).map Entry.path).Perm
      images := by
  rw [detect_unused_eq]
  constructor
  · rintro e he hu
    simp only [List.mem_map, List.mem_filter] at he hu
    obtain ⟨x, ⟨_, hxp⟩, hex⟩ := he
    obtain ⟨y, ⟨_, hyp⟩, hey⟩ := hu
    have hxy : x = y := by
      have h1 : (assetEntry cwd (baseDir project_dir fs) fs x).path = x := rfl
      have h2 : (assetEntry cwd (baseDir project_dir fs) fs y).path = y := rfl
      rw [← h1, ← h2, hex, hey]
    rw [hxy] at hxp
    rw [hxp] at hyp
    simp at hyp
  · simp only [List.map_append, List.map_map]
    have hcomp :
        (Entry.path ∘ assetEntry cwd (baseDir project_dir fs) fs) = fun img => img := by
      funext img; rfl
    rw [hcomp, List.map_id', List.map_id']
    exact List.filter_append_perm _ images

/-- Closed instance of the C1 partition invariant on the fixture project. -/
theorem classifier_partition_witness :
    (∀ e, e ∈ (detect_unused "/" "/p" ["/p/assets/a.png"] [] wFS).1 →
        e ∉ (detect_unused "/" "/p" ["/p/assets/a.png"] [] wFS).2) ∧
    (((detect_unused "/" "/p" ["/p/assets/a.png"] [] wFS).1 ++
        (detect_unused "/" "/p" ["/p/assets/a.png"] [] wFS).2).map Entry.path).Perm
      ["/p/assets/a.png"] :=
  classifier_partition "/" "/p" ["/p/assets/a.png"] [] wFS

/-! ## The compression loop -/

theorem optStep_results (backup : Bool) (call : CallResult) (st : OptState) (e : Entry) :
    (optStep backup call st e).results = st.results ++ (perFileRecord call e).toList := by
  cases call with
  | shrinkErr msg => simp [optStep, perFileRecord]
  | shrinkOk inS outS cnt afterErr =>
    by_cases h : savings_pct inS outS < 1
    · simp [optStep, perFileRecord, h]
    · cases afterErr with
      | none => simp [optStep, perFileRecord, h]
      | some msg => simp [optStep, perFileRecord, h]

theorem optStep_errors (backup : Bool) (call : CallResult) (st : OptState) (e : Entry) :
    (optStep backup call st e).errors = st.errors ++ (perFileError call e).toList := by
  cases call with
  | shrinkErr msg => simp [optStep, perFileError]
  | shrinkOk inS outS cnt afterErr =>
    by_cases h : savings_pct inS outS < 1
    · simp [optStep, perFileError, h]
    · cases afterErr with
      | none => simp [optStep, perFileError, h]
      | some msg => simp [optStep, perFileError, h]

theorem optStep_count (backup : Bool) (call : CallResult) (st : OptState) (e : Entry) :
    (optStep backup call st e).compression_count =
      (countOf call).getD st.compression_count := by
  cases call with
  | shrinkErr msg => simp [optStep, countOf]
  | shrinkOk inS outS cnt afterErr =>
    by_cases h : savings_pct inS outS < 1
    · simp [optStep, countOf, h]
    · cases afterErr with
      | none => simp [optStep, countOf, h]
      | some msg => simp [optStep, countOf, h]

theorem optLoop_results (backup : Bool) (oracle : Nat → CallResult) :
    ∀ (l : List Entry) (i : Nat) (st : OptState),
      (optLoop backup oracle i st l).results =
        st.results ++ (l.enumFrom i).filterMap (fun p => perFileRecord (oracle p.1) p.2) := by
  intro l
  induction l with
  | nil => intro i st; simp [optLoop]
  | cons e es ih =>
    intro i st
    have hstep : optLoop backup oracle i st (e :: es) =
        optLoop backup oracle (i + 1) (optStep backup (oracle i) st e) es := rfl
    rw [hstep, ih, optStep_results, List.enumFrom_cons]
    cases hp : perFileRecord (oracle i) e with
    | none => simp [List.filterMap_cons, hp]
    | some r => simp [List.filterMap_cons, hp, List.append_assoc]

theorem optLoop_errors (backup : Bool) (oracle : Nat → CallResult) :
    ∀ (l : List Entry) (i : Nat) (st : OptState),
      (optLoop backup oracle i st l).errors =
        st.errors ++ (l.enumFrom i).filterMap (fun p => perFileError (oracle p.1) p.2) := by
  intro l
  induction l with
  | nil => intro i st; simp [optLoop]
  | cons e es ih =>
    intro i st
    have hstep : optLoop backup oracle i st (e :: es) =
        optLoop backup oracle (i + 1) (optStep backup (oracle i) st e) es := rfl
    rw [hstep, ih, optStep_errors, List.enumFrom_cons]
    cases hp : perFileError (oracle i) e with
    | none => simp [List.filterMap_cons, hp]
    | some r => simp [List.filterMap_cons, hp, List.append_assoc]

theorem getLast?_getD_cons {α : Type} (r : List α) :
    ∀ (a d : α), (a :: r).getLast?.getD d = r.getLast?.getD a := by
  induction r with
  | nil => intro a d; rfl
  | cons b bs ih =>
    intro a d
    rw [List.getLast?_cons_cons, ih b d, ih b a]

theorem optLoop_count (backup : Bool) (oracle : Nat → CallResult) :
    ∀ (l : List Entry) (i : Nat) (st : OptState),
      (optLoop backup oracle i st l).compression_count =
        (((l.enumFrom i).filterMap (fun p => countOf (oracle p.1))).getLast?).getD
          st.compression_count := by
  intro l
  induction l with
  | nil => intro i st; simp [optLoop]
  | cons e es ih =>
    intro i st
    have hstep : optLoop backup oracle i st (e :: es) =
        optLoop backup oracle (i + 1) (optStep backup (oracle i) st e) es := rfl
    rw [hstep, ih, optStep_count, List.enumFrom_cons]
    cases hc : countOf (oracle i) with
    | none => simp [List.filterMap_cons, hc]
    | some c =>
      simp only [List.filterMap_cons, hc, Option.getD_some]
      rw [getLast?_getD_cons]

theorem perFile_some_iff (call : CallResult) (e : Entry) :
    (perFileRecord call e).isSome = !(perFileError call e).isSome := by
  cases call with
  | shrinkErr msg => simp [perFileRecord, perFileError]
  | shrinkOk inS outS cnt afterErr =>
    by_cases h : savings_pct inS outS < 1
    · simp [perFileRecord, perFileError, h]
    · cases afterErr with
      | none => simp [perFileRecord, perFileError, h]
      | some msg => simp [perFileRecord, perFileError, h]

theorem length_filterMap_two {α β γ : Type} (f : α → Option β) (g : α → Option γ) :
    ∀ l : List α, (∀ x ∈ l, (f x).isSome = !(g x).isSome) →
      (l.filterMap f).length + (l.filterMap g).length = l.length := by
  intro l
  induction l with
  | nil => intro _; simp
  | cons x xs ih =>
    intro h
    have hx := h x (List.mem_cons_self x xs)
    have hxs := ih (fun y hy => h y (List.mem_cons_of_mem x hy))
    cases hfx : f x with
    | none =>
      cases hgx : g x with
      | none => rw [hfx, hgx] at hx; simp at hx
      | some c =>
        simp only [List.filterMap_cons, hfx, hgx, List.length_cons]
        omega
    | some b =>
      cases hgx : g x with
      | none =>
        simp only [List.filterMap_cons, hfx, hgx, List.length_cons]
        omega
      | some c => rw [hfx, hgx] at hx; simp at hx

theorem getD_mem_enumFrom {α : Type} (d : α) :
    ∀ (l : List α) (k i : Nat), i < l.length → (k + i, l.getD i d) ∈ l.enumFrom k := by
  intro l
  induction l with
  | nil => intro k i h; simp at h
  | cons x xs ih =>
    intro k i h
    cases i with
    | zero => simp [List.enumFrom_cons]
    | succ i =>
      have hk : k + (i + 1) = (k + 1) + i := by omega
      rw [hk]
      exact List.mem_cons_of_mem _ (ih (k + 1) i (by simpa using h))

/-- Claim C3: for a used asset whose round-trip fully succeeds, the
orchestrator computes the spec's `savings_pct` formula; below the 1%
threshold the outcome is `skipped` and the state (in particular the
filesystem) is otherwise untouched, else the outcome is `compressed` with
`saved_bytes = input_size - output_size`. -/
theorem compression_savings_policy (backup : Bool) (st : OptState) (e : Entry)
    (inS outS : Int) (cnt : String) (hin : 0 ≤ inS) :
    savings_pct inS outS = savings_pct_spec inS outS ∧
    (savings_pct_spec inS outS < 1 →
      optStep backup (.shrinkOk inS outS cnt none) st e =
        { st with
          compression_count := cnt
          results := st.results ++ [⟨e.rel_path, .skipped, inS, outS, none⟩] }) ∧
    (1 ≤ savings_pct_spec inS outS →
      optStep backup (.shrinkOk inS outS cnt none) st e =
        { st with
          compression_count := cnt
          fs := addFile
            (if backup then addFile st.fs (e.path ++ ".bak") (getsize st.fs e.path)
             else st.fs) e.path outS.toNat
          results := st.results ++
            [⟨e.rel_path, .compressed, inS, outS, some (inS - outS)⟩]
          total_compressed_saved := st.total_compressed_saved + (inS - outS)
          total_compressed_original := st.total_compressed_original + inS }) := by
  have hfor : savings_pct inS outS = savings_pct_spec inS outS := by
    unfold savings_pct savings_pct_spec
    rcases eq_or_lt_of_le hin with h0 | hpos
    · rw [← h0]; norm_num
    · rw [if_pos hpos, if_neg (ne_of_gt hpos)]
      push_cast
      ring
  refine ⟨hfor, ?_, ?_⟩
  · intro h
    have hlt : savings_pct inS outS < 1 := by rw [hfor]; exact h
    obtain ⟨rs, es, tcs, tco, cc, f⟩ := st
    simp [optStep, hlt]
  · intro h
    have hnlt : ¬ savings_pct inS outS < 1 := by rw [hfor]; exact not_lt.mpr h
    obtain ⟨rs, es, tcs, tco, cc, f⟩ := st
    simp [optStep, hnlt]

/-- Closed instance of C3: 0.5% savings is skipped, 40% savings is
compressed with 400 bytes saved. -/
theorem compression_savings_policy_witness :
    savings_pct_spec 1000 995 < 1 ∧
    optStep false (.shrinkOk 1000 995 "9" none) (initOptState wFS) wEntryA =
      { initOptState wFS with
        compression_count := "9"
        results := (initOptState wFS).results ++
          [⟨wEntryA.rel_path, .skipped, 1000, 995, none⟩] } ∧
    1 ≤ savings_pct_spec 1000 600 ∧
    (optStep false (.shrinkOk 1000 600 "9" none) (initOptState wFS) wEntryA).results =
      (initOptState wFS).results ++
        [⟨wEntryA.rel_path, .compressed, 1000, 600, some (1000 - 600)⟩] := by
  have h1 : savings_pct_spec 1000 995 < 1 := by norm_num [savings_pct_spec]
  have h2 : (1 : ℚ) ≤ savings_pct_spec 1000 600 := by norm_num [savings_pct_spec]
  refine ⟨h1, ?_, h2, ?_⟩
  · exact (compression_savings_policy false (initOptState wFS) wEntryA 1000 995 "9"
      (by norm_num)).2.1 h1
  · exact congrArg OptState.results
      ((compression_savings_policy false (initOptState wFS) wEntryA 1000 600 "9"
        (by norm_num)).2.2 h2)

/-- Claim C4: with `--compress`, each used asset contributes exactly one
outcome determined only by its own round-trip; a failing file is recorded
as an error carrying the message and every other file in the batch is still
processed. -/
theorem compress_partial_failure_isolation (cwd project_dir : String)
    (images : List String) (built : List (String × String))
    (oracle : Nat → CallResult) (do_delete backup : Bool) (fs : FS) :
    ((run_optimize cwd project_dir images built oracle true do_delete backup fs).1.errors =
      ((detect_unused cwd project_dir images built fs).1.enumFrom 0).filterMap
        (fun p => perFileError (oracle p.1) p.2)) ∧
    ((run_optimize cwd project_dir images built oracle true do_delete backup fs).1.results =
      ((detect_unused cwd project_dir images built fs).1.enumFrom 0).filterMap
        (fun p => perFileRecord (oracle p.1) p.2)) ∧
    ((run_optimize cwd project_dir images built oracle true do_delete backup fs).1.results.length +
      (run_optimize cwd project_dir images built oracle true do_delete backup fs).1.errors.length =
      (detect_unused cwd project_dir images built fs).1.length) ∧
    (∀ i msg, i < (detect_unused cwd project_dir images built fs).1.length →
      oracle i = .shrinkErr msg →
      (⟨((detect_unused cwd project_dir images built fs).1.getD i wEntryA).rel_path, msg⟩ :
          CompressError) ∈
        (run_optimize cwd project_dir images built oracle true do_delete backup fs).1.errors) := by
  have herr : (run_optimize cwd project_dir images built oracle true do_delete backup fs).1.errors
      = (optimizeState cwd project_dir images built oracle true backup fs).errors := rfl
  have hres : (run_optimize cwd project_dir images built oracle true do_delete backup fs).1.results
      = (optimizeState cwd project_dir images built oracle true backup fs).results := rfl
  have herr2 : (optimizeState cwd project_dir images built oracle true backup fs).errors =
      ((detect_unused cwd project_dir images built fs).1.enumFrom 0).filterMap
        (fun p => perFileError (oracle p.1) p.2) := by
    by_cases hu : (detect_unused cwd project_dir images built fs).1.isEmpty
    · have : (detect_unused cwd project_dir images built fs).1 = [] := by
        simpa using hu
      simp [optimizeState, this, initOptState]
    · simp only [optimizeState, hu, Bool.not_false, Bool.and_self, if_true]
      rw [optLoop_errors]
      rfl
  have hres2 : (optimizeState cwd project_dir images built oracle true backup fs).results =
      ((detect_unused cwd project_dir images built fs).1.enumFrom 0).filterMap
        (fun p => perFileRecord (oracle p.1) p.2) := by
    by_cases hu : (detect_unused cwd project_dir images built fs).1.isEmpty
    · have : (detect_unused cwd project_dir images built fs).1 = [] := by
        simpa using hu
      simp [optimizeState, this, initOptState]
    · simp only [optimizeState, hu, Bool.not_false, Bool.and_self, if_true]
      rw [optLoop_results]
      rfl
  refine ⟨herr.trans herr2, hres.trans hres2, ?_, ?_⟩
  · rw [herr, herr2, hres, hres2]
    have hlen := length_filterMap_two
      (fun p : Nat × Entry => perFileRecord (oracle p.1) p.2)
      (fun p : Nat × Entry => perFileError (oracle p.1) p.2)
      ((detect_unused cwd project_dir images built fs).1.enumFrom 0)
      (fun x _ => perFile_some_iff (oracle x.1) x.2)
    rw [hlen, List.enumFrom_length]
  · intro i msg hi hOr
    rw [herr, herr2]
    refine List.mem_filterMap.mpr ⟨(i, (detect_unused cwd project_dir images built fs).1.getD i wEntryA), ?_, ?_⟩
    · have := getD_mem_enumFrom wEntryA (detect_unused cwd project_dir images built fs).1 0 i hi
      simpa using this
    · rw [hOr]; rfl

/-- Closed instance of C4: a failing first round-trip is recorded and the
second file is still processed. -/
theorem compress_partial_failure_isolation_witness :
    ((run_optimize "/" "/p" ["/p/assets/a.png"] [("/p/src/m.ts", "assets/a.png")]
        (fun _ => .shrinkErr "boom") true false false wFS).1.errors =
      ((detect_unused "/" "/p" ["/p/assets/a.png"] [("/p/src/m.ts", "assets/a.png")] wFS).1.enumFrom 0).filterMap
        (fun p => perFileError ((fun _ => CallResult.shrinkErr "boom") p.1) p.2)) ∧
    ((run_optimize "/" "/p" ["/p/assets/a.png"] [("/p/src/m.ts", "assets/a.png")]
        (fun _ => .shrinkErr "boom") true false false wFS).1.results =
      ((detect_unused "/" "/p" ["/p/assets/a.png"] [("/p/src/m.ts", "assets/a.png")] wFS).1.enumFrom 0).filterMap
        (fun p => perFileRecord ((fun _ => CallResult.shrinkErr "boom") p.1) p.2)) ∧
    ((run_optimize "/" "/p" ["/p/assets/a.png"] [("/p/src/m.ts", "assets/a.png")]
        (fun _ => .shrinkErr "boom") true false false wFS).1.results.length +
      (run_optimize "/" "/p" ["/p/assets/a.png"] [("/p/src/m.ts", "assets/a.png")]
        (fun _ => .shrinkErr "boom") true false false wFS).1.errors.length =
      (detect_unused "/" "/p" ["/p/assets/a.png"] [("/p/src/m.ts", "assets/a.png")] wFS).1.length) ∧
    (∀ i msg,
      i < (detect_unused "/" "/p" ["/p/assets/a.png"] [("/p/src/m.ts", "assets/a.png")] wFS).1.length →
      (fun _ => CallResult.shrinkErr "boom") i = .shrinkErr msg →
      (⟨((detect_unused "/" "/p" ["/p/assets/a.png"] [("/p/src/m.ts", "assets/a.png")] wFS).1.getD i wEntryA).rel_path, msg⟩ :
          CompressError) ∈
        (run_optimize "/" "/p" ["/p/assets/a.png"] [("/p/src/m.ts", "assets/a.png")]
          (fun _ => .shrinkErr "boom") true false false wFS).1.errors) :=
  compress_partial_failure_isolation "/" "/p" ["/p/assets/a.png"]
    [("/p/src/m.ts", "assets/a.png")] (fun _ => .shrinkErr "boom") false false wFS

/-- Claim C9: with `--compress`, the reported monthly usage counter is the
one returned by the last successful shrink call, and it stays the `"?"`
sentinel when no call ever succeeds. -/
theorem usage_counter_last_success (cwd project_dir : String) (images : List String)
    (built : List (String × String)) (oracle : Nat → CallResult)
    (do_delete backup : Bool) (fs : FS) :
    ((run_optimize cwd project_dir images built oracle true do_delete backup fs).1.api_compressions_this_month =
      ((((detect_unused cwd project_dir images built fs).1.enumFrom 0).filterMap
          (fun p => countOf (oracle p.1))).getLast?).getD "?") ∧
    ((((detect_unused cwd project_dir images built fs).1.enumFrom 0).filterMap
        (fun p => countOf (oracle p.1))) = [] →
      (run_optimize cwd project_dir images built oracle true do_delete backup fs).1.api_compressions_this_month = "?") := by
  have hcnt : (run_optimize cwd project_dir images built oracle true do_delete backup fs).1.api_compressions_this_month
      = (optimizeState cwd project_dir images built oracle true backup fs).compression_count := rfl
  have hmain : (optimizeState cwd project_dir images built oracle true backup fs).compression_count =
      ((((detect_unused cwd project_dir images built fs).1.enumFrom 0).filterMap
          (fun p => countOf (oracle p.1))).getLast?).getD "?" := by
    by_cases hu : (detect_unused cwd project_dir images built fs).1.isEmpty
    · have : (detect_unused cwd project_dir images built fs).1 = [] := by simpa using hu
      simp [optimizeState, this, initOptState]
    · simp only [optimizeState, hu, Bool.not_false, Bool.and_self, if_true]
      rw [optLoop_count]
      rfl
  refine ⟨hcnt.trans hmain, ?_⟩
  · intro h
    rw [hcnt, hmain, h]
    rfl

/-- Closed instance of C9 on a run whose only round-trip fails: the counter
stays the sentinel. -/
theorem usage_counter_last_success_witness :
    ((run_optimize "/" "/p" ["/p/assets/a.png"] [("/p/src/m.ts", "assets/a.png")]
        (fun _ => .shrinkErr "x") true false false wFS).1.api_compressions_this_month =
      ((((detect_unused "/" "/p" ["/p/assets/a.png"] [("/p/src/m.ts", "assets/a.png")] wFS).1.enumFrom 0).filterMap
          (fun p => countOf ((fun _ => CallResult.shrinkErr "x") p.1))).getLast?).getD "?") ∧
    ((((detect_unused "/" "/p" ["/p/assets/a.png"] [("/p/src/m.ts", "assets/a.png")] wFS).1.enumFrom 0).filterMap
        (fun p => countOf ((fun _ => CallResult.shrinkErr "x") p.1))) = [] →
      (run_optimize "/" "/p" ["/p/assets/a.png"] [("/p/src/m.ts", "assets/a.png")]
        (fun _ => .shrinkErr "x") true false false wFS).1.api_compressions_this_month = "?") :=
  usage_counter_last_success "/" "/p" ["/p/assets/a.png"]
    [("/p/src/m.ts", "assets/a.png")] (fun _ => .shrinkErr "x") false false wFS

/-! ## Reference resolution -/

/-- Counterexample to claim C7 as stated: the raw reference `./hero.png`
found in `/proj/src/ui/menu.ts` resolves to the canonical path
`src/ui/hero.png` — relative to the referencing file's directory — which is
a different string from the resolution `assets/ui/hero.png` of that
literal; consequently the asset stored at `assets/ui/hero.png` is
classified unused, not used, under that reference. -/
theorem reference_resolution_counterexample :
    resolve_import "/" "/proj" "/proj/src/ui/menu.ts" "./hero.png" = "src/ui/hero.png" ∧
    resolve_import "/" "/proj" "/proj/src/ui/menu.ts" "assets/ui/hero.png" =
      "assets/ui/hero.png" ∧
    ("src/ui/hero.png" ≠ "assets/ui/hero.png") ∧
    (detect_unused "/" "/proj" ["/proj/assets/ui/hero.png"]
        [("/proj/src/ui/menu.ts", "./hero.png")] wFS7).1 = [] ∧
    ((detect_unused "/" "/proj" ["/proj/assets/ui/hero.png"]
        [("/proj/src/ui/menu.ts", "./hero.png")] wFS7).2.map Entry.path) =
      ["/proj/assets/ui/hero.png"] := by
  refine ⟨by decide, by decide, by decide, by decide, by decide⟩

/-- Claim C7 (amended): `./hero.png` found in `src/ui/menu.ts` resolves to
the canonical path `src/ui/hero.png` (relative to the referencing file's
directory), and an asset is classified as used precisely when its
normalized absolute path is a member — under exact string equality — of the
normalized resolved reference set. -/
theorem reference_resolution_exact_match (cwd project_dir : String)
    (images : List String) (built : List (String × String)) (fs : FS)
    (img : String) (himg : img ∈ images) :
    resolve_import "/" "/proj" "/proj/src/ui/menu.ts" "./hero.png" = "src/ui/hero.png" ∧
    (assetEntry cwd (baseDir project_dir fs) fs img ∈
        (detect_unused cwd project_dir images built fs).1 ↔
      (importedAbs cwd project_dir built).contains (normpath img) = true) := by
  refine ⟨by decide, ?_⟩
  rw [detect_unused_eq]
  constructor
  · intro hmem
    simp only [List.mem_map, List.mem_filter] at hmem
    obtain ⟨x, ⟨_, hxp⟩, hex⟩ := hmem
    have hx : x = img := by
      have h1 : (assetEntry cwd (baseDir project_dir fs) fs x).path = x := rfl
      have h2 : (assetEntry cwd (baseDir project_dir fs) fs img).path = img := rfl
      rw [← h1, ← h2, hex]
    rwa [hx] at hxp
  · intro hc
    exact List.mem_map_of_mem _ (List.mem_filter.mpr ⟨himg, hc⟩)

/-- Closed instance of the amended C7: an asset whose normalized path
equals the resolved `./hero.png` reference is classified used. -/
theorem reference_resolution_exact_match_witness :
    ("/proj/src/ui/hero.png" ∈ ["/proj/src/ui/hero.png"]) ∧
    (resolve_import "/" "/proj" "/proj/src/ui/menu.ts" "./hero.png" = "src/ui/hero.png" ∧
      (assetEntry "/" (baseDir "/proj" wFS7) wFS7 "/proj/src/ui/hero.png" ∈
          (detect_unused "/" "/proj" ["/proj/src/ui/hero.png"]
            [("/proj/src/ui/menu.ts", "./hero.png")] wFS7).1 ↔
        (importedAbs "/" "/proj" [("/proj/src/ui/menu.ts", "./hero.png")]).contains
          (normpath "/proj/src/ui/hero.png") = true)) :=
  ⟨by decide,
   reference_resolution_exact_match "/" "/proj" ["/proj/src/ui/hero.png"]
     [("/proj/src/ui/menu.ts", "./hero.png")] wFS7 "/proj/src/ui/hero.png" (by decide)⟩

/-! ## The confirm phase -/

theorem any_filter_ne (p q : String) (h : q ≠ p) :
    ∀ l : List (String × Nat),
      ((l.filter (fun f => f.1 != p)).any (fun f => f.1 == q)) =
        (l.any (fun f => f.1 == q)) := by
  intro l
  induction l with
  | nil => rfl
  | cons x xs ih =>
    by_cases hx : x.1 = q
    · have h1 : (x.1 == q) = true := beq_iff_eq.mpr hx
      have h2 : (x.1 != p) = true := bne_iff_ne.mpr (hx ▸ h)
      simp [List.filter_cons, List.any_cons, h1, h2]
    · have h1 : (x.1 == q) = false := beq_eq_false_iff_ne.mpr hx
      by_cases hp : x.1 = p
      · have h2 : (x.1 != p) = false := by simp [bne, beq_iff_eq, hp]
        simp [List.filter_cons, h2, List.any_cons, h1, ih]
      · have h2 : (x.1 != p) = true := bne_iff_ne.mpr hp
        simp [List.filter_cons, h2, List.any_cons, h1, ih]

theorem fileExists_removeFile (fs : FS) (p q : String) (h : q ≠ p) :
    fileExists (removeFile fs p) q = fileExists fs q := by
  unfold fileExists removeFile
  exact any_filter_ne p q h fs.files

theorem confirmStep_skip_absent (opFails : String → Bool)
    (st : FS × List DeletedItem × Nat) (e : Entry)
    (h : fileExists st.1 e.path = false) : confirmStep opFails st e = st := by
  simp [confirmStep, h]

theorem confirmStep_skip_fail (opFails : String → Bool)
    (st : FS × List DeletedItem × Nat) (e : Entry)
    (h1 : fileExists st.1 e.path = true) (h2 : opFails e.path = true) :
    confirmStep opFails st e = st := by
  simp [confirmStep, h1, h2]

theorem confirmStep_delete (opFails : String → Bool)
    (st : FS × List DeletedItem × Nat) (e : Entry)
    (h1 : fileExists st.1 e.path = true) (h2 : opFails e.path = false) :
    confirmStep opFails st e =
      (removeFile st.1 e.path, st.2.1 ++ [toDeletedItem e], st.2.2 + e.size) := by
  simp [confirmStep, toDeletedItem, h1, h2]

theorem confirmLoop_eq (opFails : String → Bool) :
    ∀ (entries : List Entry) (fs : FS) (items : List DeletedItem) (freed : Nat),
      (entries.map Entry.path).Nodup →
      entries.foldl (confirmStep opFails) (fs, items, freed) =
        (removePaths fs ((confirmSelect opFails fs entries).map Entry.path),
         items ++ (confirmSelect opFails fs entries).map toDeletedItem,
         freed + ((confirmSelect opFails fs entries).map Entry.size).sum) := by
  intro entries
  induction entries with
  | nil => intro fs items freed _; simp [confirmSelect, removePaths]
  | cons e es ih =>
    intro fs items freed hnd
    rw [List.map_cons, List.nodup_cons] at hnd
    have hnd' : (es.map Entry.path).Nodup := hnd.2
    have hne : ∀ e' ∈ es, e'.path ≠ e.path := by
      intro e' he' heq
      exact hnd.1 (heq ▸ List.mem_map_of_mem Entry.path he')
    by_cases hex : fileExists fs e.path
    · by_cases hop : opFails e.path
      · rw [List.foldl_cons,
          confirmStep_skip_fail opFails (fs, items, freed) e hex hop,
          ih fs items freed hnd']
        have hsel : confirmSelect opFails fs (e :: es) = confirmSelect opFails fs es := by
          unfold confirmSelect
          rw [List.filter_cons]
          simp [hex, hop]
        rw [hsel]
      · have hop' : opFails e.path = false := by simpa using hop
        rw [List.foldl_cons,
          confirmStep_delete opFails (fs, items, freed) e hex hop',
          ih (removeFile fs e.path) (items ++ [toDeletedItem e]) (freed + e.size) hnd']
        have hsel' : confirmSelect opFails (removeFile fs e.path) es =
            confirmSelect opFails fs es := by
          unfold confirmSelect
          exact List.filter_congr
            (fun a ha => by rw [fileExists_removeFile fs e.path a.path (hne a ha)])
        have hsel : confirmSelect opFails fs (e :: es) = e :: confirmSelect opFails fs es := by
          unfold confirmSelect
          rw [List.filter_cons]
          simp [hex, hop']
        rw [hsel', hsel]
        simp [removePaths, List.append_assoc, Nat.add_assoc]
    · have hex' : fileExists fs e.path = false := by simpa using hex
      rw [List.foldl_cons,
        confirmStep_skip_absent opFails (fs, items, freed) e hex',
        ih fs items freed hnd']
      have hsel : confirmSelect opFails fs (e :: es) = confirmSelect opFails fs es := by
        unfold confirmSelect
        rw [List.filter_cons]
        simp [hex']
      rw [hsel]

theorem confirmLoop_all_absent (opFails : String → Bool) :
    ∀ (entries : List Entry) (fs : FS) (items : List DeletedItem) (freed : Nat),
      (∀ e ∈ entries, fileExists fs e.path = false) →
      entries.foldl (confirmStep opFails) (fs, items, freed) = (fs, items, freed) := by
  intro entries
  induction entries with
  | nil => intro fs items freed _; rfl
  | cons e es ih =>
    intro fs items freed h
    rw [List.foldl_cons,
      confirmStep_skip_absent opFails (fs, items, freed) e (h e (List.mem_cons_self e es))]
    exact ih fs items freed (fun x hx => h x (List.mem_cons_of_mem e hx))

theorem confirmLoop_dirs_manifest (opFails : String → Bool) :
    ∀ (entries : List Entry) (s : FS × List DeletedItem × Nat),
      (entries.foldl (confirmStep opFails) s).1.dirs = s.1.dirs ∧
      (entries.foldl (confirmStep opFails) s).1.manifest = s.1.manifest := by
  intro entries
  induction entries with
  | nil => intro s; exact ⟨rfl, rfl⟩
  | cons e es ih =>
    intro s
    rw [List.foldl_cons]
    obtain ⟨ha, hb⟩ := ih (confirmStep opFails s e)
    have hstep : (confirmStep opFails s e).1.dirs = s.1.dirs ∧
        (confirmStep opFails s e).1.manifest = s.1.manifest := by
      by_cases h1 : fileExists s.1 e.path
      · by_cases h2 : opFails e.path
        · rw [confirmStep_skip_fail opFails s e h1 h2]; exact ⟨rfl, rfl⟩
        · rw [confirmStep_delete opFails s e h1 (by simpa using h2)]
          exact ⟨rfl, rfl⟩
      · rw [confirmStep_skip_absent opFails s e (by simpa using h1)]
        exact ⟨rfl, rfl⟩
    exact ⟨ha.trans hstep.1, hb.trans hstep.2⟩

theorem cleanup_files_manifest (pd : String) (rmdirFails : String → Bool) :
    ∀ (ds : List String) (fs : FS),
      (ds.foldl (cleanupStep pd rmdirFails) fs).files = fs.files ∧
      (ds.foldl (cleanupStep pd rmdirFails) fs).manifest = fs.manifest := by
  intro ds
  induction ds with
  | nil => intro fs; exact ⟨rfl, rfl⟩
  | cons d ds ih =>
    intro fs
    rw [List.foldl_cons]
    obtain ⟨ha, hb⟩ := ih (cleanupStep pd rmdirFails fs d)
    have hstep : (cleanupStep pd rmdirFails fs d).files = fs.files ∧
        (cleanupStep pd rmdirFails fs d).manifest = fs.manifest := by
      unfold cleanupStep
      by_cases h : (isdir fs d && dirEmptyB pd fs d && !rmdirFails d) = true
      · rw [if_pos h]; exact ⟨rfl, rfl⟩
      · rw [if_neg h]; exact ⟨rfl, rfl⟩
    exact ⟨ha.trans hstep.1, hb.trans hstep.2⟩

theorem cleanup_keeps_nonmember (pd : String) (rmdirFails : String → Bool) :
    ∀ (ds : List String) (fs : FS) (d : String),
      d ∉ ds → d ∈ fs.dirs → d ∈ (ds.foldl (cleanupStep pd rmdirFails) fs).dirs := by
  intro ds
  induction ds with
  | nil => intro fs d _ hmem; exact hmem
  | cons d' ds ih =>
    intro fs d hnd hmem
    rw [List.foldl_cons]
    refine ih (cleanupStep pd rmdirFails fs d') d
      (fun hx => hnd (List.mem_cons_of_mem d' hx)) ?_
    have hdd : d ≠ d' := fun hx => hnd (hx ▸ List.mem_cons_self d' ds)
    unfold cleanupStep
    by_cases h : (isdir fs d' && dirEmptyB pd fs d' && !rmdirFails d') = true
    · rw [if_pos h]
      unfold removeDir
      exact List.mem_filter.mpr ⟨hmem, bne_iff_ne.mpr hdd⟩
    · rw [if_neg h]; exact hmem

theorem removePaths_files :
    ∀ (ps : List String) (fs : FS),
      (removePaths fs ps).files = fs.files.filter (fun f => !(ps.contains f.1)) := by
  intro ps
  induction ps with
  | nil => intro fs; simp [removePaths]
  | cons p ps ih =>
    intro fs
    have hstep : removePaths fs (p :: ps) = removePaths (removeFile fs p) ps := rfl
    rw [hstep, ih]
    unfold removeFile
    rw [List.filter_filter]
    exact List.filter_congr (fun a _ => by
      rw [List.contains_cons, Bool.not_or, Bool.and_comm]
      rfl)

theorem removePaths_dirs_manifest :
    ∀ (ps : List String) (fs : FS),
      (removePaths fs ps).dirs = fs.dirs ∧ (removePaths fs ps).manifest = fs.manifest := by
  intro ps
  induction ps with
  | nil => intro fs; exact ⟨rfl, rfl⟩
  | cons p ps ih =>
    intro fs
    have hstep : removePaths fs (p :: ps) = removePaths (removeFile fs p) ps := rfl
    rw [hstep]
    obtain ⟨ha, hb⟩ := ih (removeFile fs p)
    exact ⟨ha, hb⟩

theorem insertBySizeDesc_perm (x : Entry) :
    ∀ l : List Entry, (insertBySizeDesc x l).Perm (x :: l) := by
  intro l
  induction l with
  | nil => exact List.Perm.refl _
  | cons y ys ih =>
    unfold insertBySizeDesc
    by_cases h : y.size ≤ x.size
    · rw [if_pos h]
    · rw [if_neg h]
      exact (ih.cons y).trans (List.Perm.swap x y ys)

theorem sortBySizeDesc_perm : ∀ l : List Entry, (sortBySizeDesc l).Perm l := by
  intro l
  induction l with
  | nil => exact List.Perm.refl _
  | cons x xs ih =>
    unfold sortBySizeDesc
    exact (insertBySizeDesc_perm x (sortBySizeDesc xs)).trans (ih.cons x)

theorem insertByLenDesc_perm (x : String) :
    ∀ l : List String, (insertByLenDesc x l).Perm (x :: l) := by
  intro l
  induction l with
  | nil => exact List.Perm.refl _
  | cons y ys ih =>
    unfold insertByLenDesc
    by_cases h : y.length ≤ x.length
    · rw [if_pos h]
    · rw [if_neg h]
      exact (ih.cons y).trans (List.Perm.swap x y ys)

theorem sortByLenDesc_perm : ∀ l : List String, (sortByLenDesc l).Perm l := by
  intro l
  induction l with
  | nil => exact List.Perm.refl _
  | cons x xs ih =>
    unfold sortByLenDesc
    exact (insertByLenDesc_perm x (sortByLenDesc xs)).trans (ih.cons x)

theorem insertByLenDesc_pairwise (x : String) :
    ∀ l : List String, l.Pairwise (fun a b => b.length ≤ a.length) →
      (insertByLenDesc x l).Pairwise (fun a b => b.length ≤ a.length) := by
  intro l
  induction l with
  | nil => intro _; simp [insertByLenDesc]
  | cons y ys ih =>
    intro h
    obtain ⟨hy, hys⟩ := List.pairwise_cons.mp h
    unfold insertByLenDesc
    by_cases hxy : y.length ≤ x.length
    · rw [if_pos hxy]
      refine List.pairwise_cons.mpr ⟨?_, h⟩
      intro a ha
      rcases List.mem_cons.mp ha with rfl | ha
      · exact hxy
      · exact le_trans (hy a ha) hxy
    · rw [if_neg hxy]
      refine List.pairwise_cons.mpr ⟨?_, ih hys⟩
      intro a ha
      have := (insertByLenDesc_perm x ys).mem_iff.mp ha
      rcases List.mem_cons.mp this with rfl | ha'
      · exact le_of_not_le hxy
      · exact hy a ha'

theorem sortByLenDesc_pairwise :
    ∀ l : List String, (sortByLenDesc l).Pairwise (fun a b => b.length ≤ a.length) := by
  intro l
  induction l with
  | nil => exact List.Pairwise.nil
  | cons x xs ih =>
    unfold sortByLenDesc
    exact insertByLenDesc_pairwise x (sortByLenDesc xs) ih

theorem addFile_manifest (fs : FS) (p : String) (n : Nat) :
    (addFile fs p n).manifest = fs.manifest := rfl

theorem run_confirm_delete_empty (pd : String) (opFails rmdirFails : String → Bool)
    (fs : FS) (m : Manifest) (hm : fs.manifest = some m)
    (hemp : m.files.isEmpty = true) :
    run_confirm_delete pd opFails rmdirFails fs =
      ⟨0, some ⟨0, 0, []⟩, { fs with manifest := none }⟩ := by
  unfold run_confirm_delete
  rw [hm]
  simp [hemp]

theorem run_confirm_delete_nonempty (pd : String) (opFails rmdirFails : String → Bool)
    (fs : FS) (m : Manifest) (hm : fs.manifest = some m)
    (hemp : m.files.isEmpty = false) :
    run_confirm_delete pd opFails rmdirFails fs =
      ⟨0,
       some ⟨(m.files.foldl (confirmStep opFails) (fs, [], 0)).2.1.length,
             (m.files.foldl (confirmStep opFails) (fs, [], 0)).2.2,
             (m.files.foldl (confirmStep opFails) (fs, [], 0)).2.1⟩,
       { (sortByLenDesc (parentDirs m.files)).foldl (cleanupStep pd rmdirFails)
           (m.files.foldl (confirmStep opFails) (fs, [], 0)).1 with manifest := none }⟩ := by
  unfold run_confirm_delete
  rw [hm]
  simp [hemp]

/-- Claim C5: confirm with no manifest present exits with code 1, produces
no structured result, and leaves the filesystem — in particular every file
on disk — untouched. -/
theorem confirm_missing_manifest (pd : String) (opFails rmdirFails : String → Bool)
    (fs : FS) (h : fs.manifest = none) :
    run_confirm_delete pd opFails rmdirFails fs = ⟨1, none, fs⟩ := by
  unfold run_confirm_delete
  rw [h]

/-- Closed instance of C5 on the fixture project without a manifest. -/
theorem confirm_missing_manifest_witness :
    wFS.manifest = none ∧
    run_confirm_delete "/p" (fun _ => false) (fun _ => false) wFS = ⟨1, none, wFS⟩ :=
  ⟨rfl, confirm_missing_manifest "/p" (fun _ => false) (fun _ => false) wFS rfl⟩

/-- Claim C6: when a manifest is present, confirm succeeds (exit 0), always
removes the manifest afterward — also on an empty file list, which reports
zero deletions — and entries whose files were already removed externally
are skipped without error and without touching the disk. -/
theorem confirm_consumes_manifest (pd : String) (opFails rmdirFails : String → Bool)
    (fs : FS) (m : Manifest) (hm : fs.manifest = some m) :
    ((run_confirm_delete pd opFails rmdirFails fs).exitCode = 0) ∧
    ((run_confirm_delete pd opFails rmdirFails fs).fs.manifest = none) ∧
    (m.files = [] →
      run_confirm_delete pd opFails rmdirFails fs =
        ⟨0, some ⟨0, 0, []⟩, { fs with manifest := none }⟩) ∧
    ((∀ e ∈ m.files, fileExists fs e.path = false) →
      (run_confirm_delete pd opFails rmdirFails fs).result = some ⟨0, 0, []⟩ ∧
      (run_confirm_delete pd opFails rmdirFails fs).fs.files = fs.files) := by
  by_cases hemp : m.files.isEmpty
  · rw [run_confirm_delete_empty pd opFails rmdirFails fs m hm hemp]
    exact ⟨rfl, rfl, fun _ => rfl, fun _ => ⟨rfl, rfl⟩⟩
  · have hemp' : m.files.isEmpty = false := by simpa using hemp
    rw [run_confirm_delete_nonempty pd opFails rmdirFails fs m hm hemp']
    refine ⟨rfl, rfl, ?_, ?_⟩
    · intro hfe
      rw [hfe] at hemp'
      simp at hemp'
    · intro hall
      rw [confirmLoop_all_absent opFails m.files fs [] 0 hall]
      exact ⟨rfl, (cleanup_files_manifest pd rmdirFails
        (sortByLenDesc (parentDirs m.files)) fs).1⟩

/-- Closed instance of C6 on a manifest whose only entry's file is already
gone: zero deletions, no error, manifest consumed. -/
theorem confirm_consumes_manifest_witness :
    wFSgone.manifest = some ⟨"p", "/p", 1, 5, "5 B",
      [⟨"/p/assets/x.png", "x.png", "x.png", 5, "5 B"⟩]⟩ ∧
    (((run_confirm_delete "/p" (fun _ => false) (fun _ => false) wFSgone).exitCode = 0) ∧
     ((run_confirm_delete "/p" (fun _ => false) (fun _ => false) wFSgone).fs.manifest = none) ∧
     ((⟨"p", "/p", 1, 5, "5 B",
        [⟨"/p/assets/x.png", "x.png", "x.png", 5, "5 B"⟩]⟩ : Manifest).files = [] →
       run_confirm_delete "/p" (fun _ => false) (fun _ => false) wFSgone =
         ⟨0, some ⟨0, 0, []⟩, { wFSgone with manifest := none }⟩) ∧
     ((∀ e ∈ (⟨"p", "/p", 1, 5, "5 B",
          [⟨"/p/assets/x.png", "x.png", "x.png", 5, "5 B"⟩]⟩ : Manifest).files,
        fileExists wFSgone e.path = false) →
       (run_confirm_delete "/p" (fun _ => false) (fun _ => false) wFSgone).result =
         some ⟨0, 0, []⟩ ∧
       (run_confirm_delete "/p" (fun _ => false) (fun _ => false) wFSgone).fs.files =
         wFSgone.files)) :=
  ⟨rfl, confirm_consumes_manifest "/p" (fun _ => false) (fun _ => false) wFSgone
    ⟨"p", "/p", 1, 5, "5 B", [⟨"/p/assets/x.png", "x.png", "x.png", 5, "5 B"⟩]⟩ rfl⟩

/-- Claim C10: the reported count covers exactly the manifest entries whose
file existed and whose backup/removal did not raise; the freed bytes are
the sum of those entries' manifest-recorded sizes (the formula never reads
an on-disk size); an entry that raises or is absent contributes to neither
figure, while every other entry is still processed. -/
theorem confirm_accounting (pd : String) (opFails rmdirFails : String → Bool)
    (fs : FS) (m : Manifest) (hm : fs.manifest = some m)
    (hnd : (m.files.map Entry.path).Nodup) :
    ((run_confirm_delete pd opFails rmdirFails fs).result =
      some ⟨(confirmSelect opFails fs m.files).length,
            ((confirmSelect opFails fs m.files).map Entry.size).sum,
            (confirmSelect opFails fs m.files).map toDeletedItem⟩) ∧
    (∀ e ∈ m.files, opFails e.path = true → e ∉ confirmSelect opFails fs m.files) ∧
    (∀ e ∈ m.files, fileExists fs e.path = false →
      e ∉ confirmSelect opFails fs m.files) := by
  refine ⟨?_, ?_, ?_⟩
  · by_cases hemp : m.files.isEmpty
    · have hfe : m.files = [] := by simpa using hemp
      rw [run_confirm_delete_empty pd opFails rmdirFails fs m hm hemp]
      simp [confirmSelect, hfe]
    · rw [run_confirm_delete_nonempty pd opFails rmdirFails fs m hm (by simpa using hemp)]
      rw [confirmLoop_eq opFails m.files fs [] 0 hnd]
      simp [confirmSelect]
  · intro e _ hop hmem
    have := (List.mem_filter.mp hmem).2
    rw [hop] at this
    simp at this
  · intro e _ hex hmem
    have := (List.mem_filter.mp hmem).2
    rw [hex] at this
    simp at this

/-- Closed instance of C10: the first entry's removal raises and is not
counted; the second is deleted and accounted with its manifest-recorded
size 3 even though its on-disk size is 7. -/
theorem confirm_accounting_witness :
    wFSm.manifest = some wManifest ∧
    ((run_confirm_delete "/p" (fun p => p == "/p/assets/a.png") (fun _ => false) wFSm).result =
      some ⟨(confirmSelect (fun p => p == "/p/assets/a.png") wFSm wManifest.files).length,
            ((confirmSelect (fun p => p == "/p/assets/a.png") wFSm wManifest.files).map
              Entry.size).sum,
            (confirmSelect (fun p => p == "/p/assets/a.png") wFSm wManifest.files).map
              toDeletedItem⟩) ∧
    ((run_confirm_delete "/p" (fun p => p == "/p/assets/a.png") (fun _ => false) wFSm).result =
      some ⟨1, 3, [⟨"b.png", 3, "3 B"⟩]⟩) :=
  ⟨rfl,
   (confirm_accounting "/p" (fun p => p == "/p/assets/a.png") (fun _ => false) wFSm
     wManifest rfl (by decide)).1,
   by decide⟩

/-- Counterexample to claim C8 as stated: the cleanup pass considers the
parent directories of *all manifest entries*, not only of the files it
deleted.  Here the manifest's only entry was already removed externally, so
confirm deletes nothing, yet the entry's (now empty) parent directory
`/p/assets` is still removed. -/
theorem cleanup_dirs_counterexample :
    ((run_confirm_delete "/p" (fun _ => false) (fun _ => false) wFSgone).result =
      some ⟨0, 0, []⟩) ∧
    "/p/assets" ∈ wFSgone.dirs ∧
    "/p/assets" ∉
      (run_confirm_delete "/p" (fun _ => false) (fun _ => false) wFSgone).fs.dirs := by
  refine ⟨by decide, by decide, by decide⟩

/-- Claim C8 (amended): the directories considered for cleanup are exactly
the parent directories of the manifest's entries (deleted or not), walked
longest-first; a directory that is no entry's parent is never removed; the
walk order is length-descending over the deduplicated parent set; and any
cleanup failure is swallowed — the run still exits 0, still consumes the
manifest, and reports the same result. -/
theorem confirm_dir_cleanup (pd : String) (opFails rmdirFails : String → Bool)
    (fs : FS) (m : Manifest) (hm : fs.manifest = some m) :
    (∀ d, d ∈ fs.dirs → (∀ e ∈ m.files, dirname e.path ≠ d) →
        d ∈ (run_confirm_delete pd opFails rmdirFails fs).fs.dirs) ∧
    ((sortByLenDesc (parentDirs m.files)).Pairwise (fun a b => b.length ≤ a.length)) ∧
    ((sortByLenDesc (parentDirs m.files)).Perm (parentDirs m.files)) ∧
    ((run_confirm_delete pd opFails rmdirFails fs).exitCode = 0) ∧
    ((run_confirm_delete pd opFails rmdirFails fs).fs.manifest = none) ∧
    ((run_confirm_delete pd opFails rmdirFails fs).result =
      (run_confirm_delete pd opFails (fun _ => false) fs).result) := by
  have hnotin : ∀ d, (∀ e ∈ m.files, dirname e.path ≠ d) →
      d ∉ sortByLenDesc (parentDirs m.files) := by
    intro d hne hmem
    have h1 : d ∈ parentDirs m.files := (sortByLenDesc_perm _).mem_iff.mp hmem
    have h2 : d ∈ m.files.map (fun e => dirname e.path) := List.mem_dedup.mp h1
    obtain ⟨e, he, heq⟩ := List.mem_map.mp h2
    exact hne e he heq
  by_cases hemp : m.files.isEmpty
  · rw [run_confirm_delete_empty pd opFails rmdirFails fs m hm hemp,
      run_confirm_delete_empty pd opFails (fun _ => false) fs m hm hemp]
    exact ⟨fun d hd _ => hd, sortByLenDesc_pairwise _, sortByLenDesc_perm _,
      rfl, rfl, rfl⟩
  · have hemp' : m.files.isEmpty = false := by simpa using hemp
    rw [run_confirm_delete_nonempty pd opFails rmdirFails fs m hm hemp',
      run_confirm_delete_nonempty pd opFails (fun _ => false) fs m hm hemp']
    refine ⟨?_, sortByLenDesc_pairwise _, sortByLenDesc_perm _, rfl, rfl, rfl⟩
    intro d hd hne
    have hdirs : (m.files.foldl (confirmStep opFails) (fs, [], 0)).1.dirs = fs.dirs :=
      (confirmLoop_dirs_manifest opFails m.files (fs, [], 0)).1
    exact cleanup_keeps_nonmember pd rmdirFails (sortByLenDesc (parentDirs m.files))
      (m.files.foldl (confirmStep opFails) (fs, [], 0)).1 d (hnotin d hne)
      (hdirs ▸ hd)

/-- Closed instance of the amended C8, with a cleanup failure oracle that
always raises: nothing is removed, yet the run exits 0, consumes the
manifest, and reports the same result as the failure-free run. -/
theorem confirm_dir_cleanup_witness :
    wFSgone.manifest = some ⟨"p", "/p", 1, 5, "5 B",
      [⟨"/p/assets/x.png", "x.png", "x.png", 5, "5 B"⟩]⟩ ∧
    ((∀ d, d ∈ wFSgone.dirs →
        (∀ e ∈ (⟨"p", "/p", 1, 5, "5 B",
            [⟨"/p/assets/x.png", "x.png", "x.png", 5, "5 B"⟩]⟩ : Manifest).files,
          dirname e.path ≠ d) →
        d ∈ (run_confirm_delete "/p" (fun _ => false) (fun _ => true) wFSgone).fs.dirs) ∧
     ((sortByLenDesc (parentDirs (⟨"p", "/p", 1, 5, "5 B",
        [⟨"/p/assets/x.png", "x.png", "x.png", 5, "5 B"⟩]⟩ : Manifest).files)).Pairwise
        (fun a b => b.length ≤ a.length)) ∧
     ((sortByLenDesc (parentDirs (⟨"p", "/p", 1, 5, "5 B",
        [⟨"/p/assets/x.png", "x.png", "x.png", 5, "5 B"⟩]⟩ : Manifest).files)).Perm
        (parentDirs (⟨"p", "/p", 1, 5, "5 B",
          [⟨"/p/assets/x.png", "x.png", "x.png", 5, "5 B"⟩]⟩ : Manifest).files)) ∧
     ((run_confirm_delete "/p" (fun _ => false) (fun _ => true) wFSgone).exitCode = 0) ∧
     ((run_confirm_delete "/p" (fun _ => false) (fun _ => true) wFSgone).fs.manifest =
        none) ∧
     ((run_confirm_delete "/p" (fun _ => false) (fun _ => true) wFSgone).result =
        (run_confirm_delete "/p" (fun _ => false) (fun _ => false) wFSgone).result)) :=
  ⟨rfl, confirm_dir_cleanup "/p" (fun _ => false) (fun _ => true) wFSgone
    ⟨"p", "/p", 1, 5, "5 B", [⟨"/p/assets/x.png", "x.png", "x.png", 5, "5 B"⟩]⟩ rfl⟩

/-- `run_optimize` in propose-only mode with a nonempty unused set writes
the manifest and the review artifact (lines 422-441). -/
theorem run_optimize_snd_propose (cwd project_dir : String) (images : List String)
    (built : List (String × String)) (oracle : Nat → CallResult) (fs : FS)
    (hu : (detect_unused cwd project_dir images built fs).2.isEmpty = false) :
    (run_optimize cwd project_dir images built oracle false true false fs).2 =
      addFile { fs with manifest := some (proposedManifest cwd project_dir images built fs) }
        (joinPath project_dir reviewFileName) 0 := by
  simp [run_optimize, optimizeState, initOptState, hu]

/-- `run_optimize` in propose-only mode with an empty unused set writes
nothing. -/
theorem run_optimize_snd_propose_empty (cwd project_dir : String) (images : List String)
    (built : List (String × String)) (oracle : Nat → CallResult) (fs : FS)
    (hu : (detect_unused cwd project_dir images built fs).2.isEmpty = true) :
    (run_optimize cwd project_dir images built oracle false true false fs).2 = fs := by
  simp [run_optimize, optimizeState, initOptState, hu]

/-- Claim C2: when a propose-only run writes a manifest with N entries
(pairwise-distinct paths) and all listed files are still on disk and the
manifest is untouched, confirm exits 0, deletes exactly those N files,
reports freed bytes equal to the sum of the manifest-recorded sizes, and
the manifest no longer exists afterward. -/
theorem propose_confirm_roundtrip (cwd project_dir : String) (images : List String)
    (built : List (String × String)) (oracle : Nat → CallResult)
    (rmdirFails : String → Bool) (fs : FS) (m : Manifest)
    (h0 : fs.manifest = none)
    (hm : (run_optimize cwd project_dir images built oracle false true false fs).2.manifest =
      some m)
    (hnd : (m.files.map Entry.path).Nodup)
    (hex : ∀ e ∈ m.files,
      fileExists (run_optimize cwd project_dir images built oracle false true false fs).2
        e.path = true) :
    ((run_confirm_delete project_dir (fun _ => false) rmdirFails
        (run_optimize cwd project_dir images built oracle false true false fs).2).exitCode =
      0) ∧
    ((run_confirm_delete project_dir (fun _ => false) rmdirFails
        (run_optimize cwd project_dir images built oracle false true false fs).2).result =
      some ⟨m.files.length, (m.files.map Entry.size).sum, m.files.map toDeletedItem⟩) ∧
    ((run_confirm_delete project_dir (fun _ => false) rmdirFails
        (run_optimize cwd project_dir images built oracle false true false fs).2).fs.manifest =
      none) ∧
    ((run_confirm_delete project_dir (fun _ => false) rmdirFails
        (run_optimize cwd project_dir images built oracle false true false fs).2).fs.files =
      (run_optimize cwd project_dir images built oracle false true false fs).2.files.filter
        (fun f => !((m.files.map Entry.path).contains f.1))) := by
  by_cases hu : (detect_unused cwd project_dir images built fs).2.isEmpty
  · rw [run_optimize_snd_propose_empty cwd project_dir images built oracle fs hu] at hm
    rw [h0] at hm
    cases hm
  · have hu' : (detect_unused cwd project_dir images built fs).2.isEmpty = false := by
      simpa using hu
    have hpr := run_optimize_snd_propose cwd project_dir images built oracle fs hu'
    have hmM : m = proposedManifest cwd project_dir images built fs := by
      rw [hpr, addFile_manifest] at hm
      exact (Option.some.injEq _ _ ▸ hm :
        proposedManifest cwd project_dir images built fs = m).symm
    have hfe : m.files.isEmpty = false := by
      rw [hmM]
      show (sortBySizeDesc (detect_unused cwd project_dir images built fs).2).isEmpty = false
      cases hs : sortBySizeDesc (detect_unused cwd project_dir images built fs).2 with
      | nil =>
        exfalso
        have hlen := (sortBySizeDesc_perm
          (detect_unused cwd project_dir images built fs).2).length_eq
        rw [hs] at hlen
        have hz : (detect_unused cwd project_dir images built fs).2 = [] :=
          List.length_eq_zero.mp hlen.symm
        rw [hz] at hu'
        simp at hu'
      | cons a l => rfl
    have hsel : confirmSelect (fun _ => false)
        (run_optimize cwd project_dir images built oracle false true false fs).2 m.files =
        m.files := by
      apply List.filter_eq_self.mpr
      intro e he
      rw [hex e he]
      rfl
    rw [run_confirm_delete_nonempty project_dir (fun _ => false) rmdirFails
      (run_optimize cwd project_dir images built oracle false true false fs).2 m hm hfe]
    rw [confirmLoop_eq (fun _ => false) m.files
      (run_optimize cwd project_dir images built oracle false true false fs).2 [] 0 hnd]
    rw [hsel]
    refine ⟨rfl, by simp, rfl, ?_⟩
    have hclean := (cleanup_files_manifest project_dir rmdirFails
      (sortByLenDesc (parentDirs m.files))
      (removePaths (run_optimize cwd project_dir images built oracle false true false fs).2
        (m.files.map Entry.path))).1
    exact hclean.trans (removePaths_files (m.files.map Entry.path)
      (run_optimize cwd project_dir images built oracle false true false fs).2)

/-- Closed instance of C2 on the fixture project: propose lists both unused
images (13 bytes), confirm deletes both, frees 13 bytes, and consumes the
manifest. -/
theorem propose_confirm_roundtrip_witness :
    wFS.manifest = none ∧
    ((run_optimize "/" "/p" ["/p/assets/a.png", "/p/assets/b.png"] []
        (fun _ => .shrinkErr "") false true false wFS).2.manifest = some wManifest) ∧
    ((wManifest.files.map Entry.path).Nodup) ∧
    (∀ e ∈ wManifest.files,
      fileExists (run_optimize "/" "/p" ["/p/assets/a.png", "/p/assets/b.png"] []
        (fun _ => .shrinkErr "") false true false wFS).2 e.path = true) ∧
    (((run_confirm_delete "/p" (fun _ => false) (fun _ => false)
        (run_optimize "/" "/p" ["/p/assets/a.png", "/p/assets/b.png"] []
          (fun _ => .shrinkErr "") false true false wFS).2).exitCode = 0) ∧
     ((run_confirm_delete "/p" (fun _ => false) (fun _ => false)
        (run_optimize "/" "/p" ["/p/assets/a.png", "/p/assets/b.png"] []
          (fun _ => .shrinkErr "") false true false wFS).2).result =
       some ⟨wManifest.files.length, (wManifest.files.map Entry.size).sum,
             wManifest.files.map toDeletedItem⟩) ∧
     ((run_confirm_delete "/p" (fun _ => false) (fun _ => false)
        (run_optimize "/" "/p" ["/p/assets/a.png", "/p/assets/b.png"] []
          (fun _ => .shrinkErr "") false true false wFS).2).fs.manifest = none) ∧
     ((run_confirm_delete "/p" (fun _ => false) (fun _ => false)
        (run_optimize "/" "/p" ["/p/assets/a.png", "/p/assets/b.png"] []
          (fun _ => .shrinkErr "") false true false wFS).2).fs.files =
       (run_optimize "/" "/p" ["/p/assets/a.png", "/p/assets/b.png"] []
          (fun _ => .shrinkErr "") false true false wFS).2.files.filter
         (fun f => !((wManifest.files.map Entry.path).contains f.1)))) :=
  ⟨rfl, by decide, by decide, by decide,
   propose_confirm_roundtrip "/" "/p" ["/p/assets/a.png", "/p/assets/b.png"] []
     (fun _ => .shrinkErr "") (fun _ => false) wFS wManifest rfl (by decide) (by decide)
     (by decide)⟩

end AdAsset
